import Mathlib

/-!
Shallow embedding of the signal-and-risk engine of `bot.py` (breakout/VWAP/RSI
scanner with ATR risk sizing and drawdown guardrails).  Python floats are
modelled as exact rationals; functions that return `float("nan")` on
insufficient data are modelled with `Option`; the I/O surface of a scan cycle
(account fetch, bar fetch, snapshot fetch, order placement) is modelled by an
explicit environment record and a trace of emitted events.
-/

set_option maxRecDepth 20000

namespace PaperBot

/- ===== Tunables (bot.py, lines 20-31), as exact rationals ===== -/

def MAX_SYMBOLS_PER_SCAN : Nat := 60

def MAX_CONCURRENT_POS : Nat := 6

def RISK_PCT_PER_TRADE : ℚ := 1/100

def TAKE_PROFIT_ATR_MULT : ℚ := 22/10

def STOP_ATR_MULT : ℚ := 11/10

def MIN_PRICE : ℚ := 5

def MAX_PRICE : ℚ := 800

def MIN_AVG_VOL : ℚ := 300000

def DAILY_MAX_LOSS_PCT : ℚ := 3/100

/-- The symbol universe (bot.py, lines 40-47). -/
def UNIVERSE : List String := [
  "AAPL","MSFT","NVDA","TSLA","AMD","META","AMZN","GOOGL","GOOG","NFLX","AVGO","SMCI","ASML",
  "SHOP","UBER","CRM","ADBE","MU","INTC","COIN","PLTR","SQ","ABNB","DELL","ON","KLAC","LRCX",
  "PANW","NOW","ANET","TTD","SNOW","MDB","BABA","PDD","NIO","LI","RIVN","CVNA","DDOG","CRWD",
  "NET","ZS","OKTA","ARM","SOFI","UAL","JPM","BAC","CAT","GE","DE","MARA","RIOT","AFRM","WMT",
  "TGT","HD","LOW","DAL","AAL","NKE","COST","PEP","KO","DIS","SBUX","BA","QCOM","TXN","MRVL",
  "INTU","PYPL","NEE","ENPH","RUN","CCL","NCLH"]

/- ===== Indicators (bot.py, lines 110-128) ===== -/

/-- Python slice `xs[-n:]`: the last `n` elements (the whole list when `n = 0`,
mirroring `xs[-0:] = xs[0:]`). -/
def lastN (xs : List ℚ) (n : Nat) : List ℚ :=
  if n = 0 then xs else xs.drop (xs.length - n)

/-- Python `max` over a list: defined only on non-empty input. -/
def listMax (xs : List ℚ) : Option ℚ :=
  match xs with
  | [] => none
  | x :: t => some (t.foldl max x)

/-- `highest(values, n)` (line 111): max of the last `n` values, `NaN` (here
`none`) when fewer than `n` values are available. -/
def highest (values : List ℚ) (n : Nat) : Option ℚ :=
  if n ≤ values.length then listMax (lastN values n) else none

/-- One true-range term (line 118): `max(h-l, abs(h-pc), abs(l-pc))`. -/
def trueRange (h l pc : ℚ) : ℚ := max (h - l) (max |h - pc| |l - pc|)

/-- The list `trs` of line 115-118: `trueRange highs[i] lows[i] closes[i-1]`
for `i = 1 .. len(closes)-1`. -/
def trs (highs lows closes : List ℚ) : List ℚ :=
  (List.range (closes.length - 1)).map (fun j =>
    trueRange (highs.getD (j+1) 0) (lows.getD (j+1) 0) (closes.getD j 0))

/-- `atr` (lines 113-119): mean of the last `n` true ranges; `NaN` (`none`)
when fewer than `n+1` closes are available. -/
def atr (highs lows closes : List ℚ) (n : Nat := 14) : Option ℚ :=
  if closes.length < n + 1 then none
  else if n ≤ (trs highs lows closes).length then
    some ((lastN (trs highs lows closes) n).sum / n)
  else none

/-- Consecutive close differences `closes[i] - closes[i-1]` (line 124). -/
def diffs (closes : List ℚ) : List ℚ :=
  (List.range (closes.length - 1)).map (fun j =>
    closes.getD (j+1) 0 - closes.getD j 0)

/-- Per-period gains `max(0, ch)` (line 125). -/
def gains (closes : List ℚ) : List ℚ := (diffs closes).map (fun ch => max 0 ch)

/-- Per-period losses `max(0, -ch)` (line 125). -/
def losses (closes : List ℚ) : List ℚ := (diffs closes).map (fun ch => max 0 (-ch))

/-- `avg_gain` of line 126. -/
def avgGain (closes : List ℚ) (n : Nat) : ℚ := (lastN (gains closes) n).sum / n

/-- `avg_loss` of line 126. -/
def avgLoss (closes : List ℚ) (n : Nat) : ℚ := (lastN (losses closes) n).sum / n

/-- `rsi` (lines 120-128): `NaN` (`none`) below `n+1` closes, `100` when the
average loss is zero, otherwise `100 - 100/(1+rs)`. -/
def rsi (closes : List ℚ) (n : Nat := 14) : Option ℚ :=
  if closes.length < n + 1 then none
  else if avgLoss closes n = 0 then some 100
  else some (100 - 100 / (1 + avgGain closes n / avgLoss closes n))

/- ===== Risk sizing (bot.py, lines 167-173) ===== -/

/-- `position_size`: risk-budget share count, floored, capped by buying power,
clamped at zero.  `math.floor` is `Int.floor` on exact rationals. -/
def position_size (buying_power entry stop risk_pct : ℚ) : ℤ :=
  let risk_dollars := max 0 buying_power * risk_pct
  let per_share_risk := max (1/100) (entry - stop)
  let shares := ⌊risk_dollars / per_share_risk⌋
  let shares := if buying_power < (shares : ℚ) * entry then ⌊buying_power / entry⌋ else shares
  max 0 shares

/- ===== Strategy (bot.py, lines 130-164) ===== -/

/-- One market-data bar; `analyze_symbol` reads the keys `h`, `l`, `c`, `v`. -/
structure Bar where
  h : ℚ
  l : ℚ
  c : ℚ
  v : ℚ
deriving DecidableEq

/-- A trade candidate (the dictionary returned at lines 163-164). -/
structure Candidate where
  symbol : String
  entry : ℚ
  stop : ℚ
  take : ℚ
  atr : ℚ
  avg_vol : ℚ
  strength : ℚ
deriving DecidableEq

/-- `closes[-1]` (line 135); `analyze_symbol` only reads it on lists of 60+
bars, so the default is never consulted. -/
def lastClose (bars : List Bar) : ℚ := (bars.map Bar.c).getLastD 0

/-- `avg_vol = sum(vols[-30:]) / 30` (line 137). -/
def avgVol30 (bars : List Bar) : ℚ := (lastN (bars.map Bar.v) 30).sum / 30

/-- The volume baseline of line 141: mean of `vols[-21:-1]` when more than 21
volumes exist, the 30-bar average volume otherwise. -/
def volBase (vols : List ℚ) (avg_vol : ℚ) : ℚ :=
  if 21 < vols.length then ((lastN vols 21).dropLast).sum / 20 else avg_vol

/-- The breakout test of line 141: `last > hi20 and vols[-1] > 1.5 * base`.
A `NaN` (`none`) `hi20` compares false, as in the source. -/
def breakoutB (last : ℚ) (hi20? : Option ℚ) (vols : List ℚ) (avg_vol : ℚ) : Bool :=
  (match hi20? with
   | none => false
   | some hi20 => decide (hi20 < last))
  && decide (3/2 * volBase vols avg_vol < vols.getLastD 0)

/-- Typical price `(h+l+c)/3` (line 143). -/
def typicalPrice (b : Bar) : ℚ := (b.h + b.l + b.c) / 3

/-- The 30-bar rolling VWAP of line 144, falling back to the last close when
the 30-bar volume sum is not positive. -/
def vwap30 (bars : List Bar) : ℚ :=
  if 0 < (lastN (bars.map Bar.v) 30).sum then
    (((lastN (bars.map typicalPrice) 30).zip (lastN (bars.map Bar.v) 30)).map
        (fun p => p.1 * p.2)).sum / (lastN (bars.map Bar.v) 30).sum
  else lastClose bars

/-- `rsi_ok = r < 75` (line 147); a `NaN` RSI compares false (it cannot arise
on 60+ bars). -/
def rsiOkB (bars : List Bar) : Bool :=
  match rsi (bars.map Bar.c) 14 with
  | none => false
  | some r => decide (r < 75)

/-- `analyze_symbol` (lines 131-164).  The bar fetch and the snapshot fetch
are inputs: `bars?` is `get_bars`'s result, `trading_status` the snapshot's
`trading_status` key.  `highest` over the 59+ previous highs is always
defined; were it `NaN`, the breakout gate would compare false and the
function would return `None`, which the `none` branch mirrors. -/
def analyze_symbol (symbol : String) (bars? : Option (List Bar))
    (trading_status : Option String) : Option Candidate :=
  match bars? with
  | none => none
  | some bars =>
    if bars.length < 60 then none
    else if ¬ (MIN_PRICE ≤ lastClose bars ∧ lastClose bars ≤ MAX_PRICE) then none
    else if avgVol30 bars < MIN_AVG_VOL then none
    else
      match highest (bars.map Bar.h).dropLast 20 with
      | none => none
      | some hi20 =>
        match atr (bars.map Bar.h) (bars.map Bar.l) (bars.map Bar.c) 14 with
        | none => none
        | some a =>
          if breakoutB (lastClose bars) (some hi20) (bars.map Bar.v) (avgVol30 bars)
              && decide (vwap30 bars < lastClose bars) && rsiOkB bars then
            if trading_status = some "Halted" ∨ trading_status = some "T1" then none
            else
              some { symbol := symbol
                     entry := lastClose bars
                     stop := lastClose bars - STOP_ATR_MULT * a
                     take := lastClose bars + TAKE_PROFIT_ATR_MULT * a
                     atr := a
                     avg_vol := avgVol30 bars
                     strength := (lastClose bars - hi20) / max (1/100) a
                       + (lastClose bars - vwap30 bars) / max (1/100) a }
          else none

/-- The breakout condition exactly as the specification words it (claim C6):
last close strictly above the highest high of the 20 bars preceding the last
bar, and last volume strictly above 1.5 times the mean volume of those 20
preceding bars when at least 21 bars are available, or 1.5 times the overall
average volume otherwise. -/
def breakout_claim (bars : List Bar) (avg_vol : ℚ) : Bool :=
  decide ((listMax (lastN (bars.map Bar.h).dropLast 20)).getD 0 < lastClose bars)
  && decide (3/2 * (if 21 ≤ bars.length
        then (lastN (bars.map Bar.v).dropLast 20).sum / 20 else avg_vol)
      < (bars.map Bar.v).getLastD 0)

/- ===== Guardrails (bot.py, lines 175-184) ===== -/

/-- One field of the account JSON dictionary: missing, present and convertible
by `float(...)`, or present but raising on conversion. -/
inductive AcctField where
  | absent
  | val (q : ℚ)
  | malformed
deriving DecidableEq

/-- `float(acct.get(key, default))`: `none` models the conversion raising. -/
def getField (f : AcctField) (default : ℚ) : Option ℚ :=
  match f with
  | .absent => some default
  | .val q => some q
  | .malformed => none

/-- The account snapshot consumed by a scan cycle. -/
structure Acct where
  equity : AcctField
  last_equity : AcctField
  trading_blocked : Bool
  buying_power : ℚ
deriving DecidableEq

/-- `daily_loss_exceeded` (lines 175-184): drawdown versus `last_equity`, zero
when `last_equity` is falsy; any exception from the float conversions is
swallowed and yields `False`. -/
def daily_loss_exceeded (acct : Acct) : Bool :=
  match getField acct.equity 0 with
  | none => false
  | some eq =>
    match getField acct.last_equity eq with
    | none => false
    | some last_eq =>
      let dd := if last_eq = 0 then 0 else (eq - last_eq) / last_eq
      decide (dd < -DAILY_MAX_LOSS_PCT)

/- ===== Core loop (bot.py, lines 218-249) ===== -/

/-- The external world a scan cycle reads: the account fetch, the open
position count, and per-symbol bar and snapshot-status fetches. -/
structure ScanEnv where
  acct : Option Acct
  positions : Nat
  bars : String → Option (List Bar)
  status : String → Option String

/-- The observable actions of the order loop: a `position_size` call and its
result, and a bracket-order submission. -/
inductive TradeEvent where
  | sized (symbol : String) (qty : ℤ)
  | ordered (symbol : String) (qty : ℤ) (stop take : ℚ)
deriving DecidableEq

/-- Descending-strength comparison used by `candidates.sort(key=...,
reverse=True)` at line 239. -/
def strengthGE (a b : Candidate) : Prop := b.strength ≤ a.strength

instance : DecidableRel strengthGE :=
  fun a b => inferInstanceAs (Decidable (b.strength ≤ a.strength))

instance : IsTotal Candidate strengthGE := ⟨fun a b => le_total b.strength a.strength⟩

instance : IsTrans Candidate strengthGE :=
  ⟨fun _ _ _ hab hbc => le_trans hbc hab⟩

/-- Line 239: Python's `list.sort` is a stable sort; with `reverse=True` it
orders by descending key and keeps ties in original order, which is exactly
insertion sort under `strengthGE`. -/
def sortByStrengthDesc (l : List Candidate) : List Candidate :=
  l.insertionSort strengthGE

/-- The per-symbol evaluation of lines 233-235, in universe order. -/
def candidatesOf (env : ScanEnv) : List Candidate :=
  (UNIVERSE.take MAX_SYMBOLS_PER_SCAN).filterMap
    (fun s => analyze_symbol s (env.bars s) (env.status s))

/-- The order loop of lines 241-249: size each candidate in turn; on a
non-positive size continue to the next, otherwise place one bracket order and
break.  Printing, session tagging and CSV logging are external I/O. -/
def tradeLoop (buying_power : ℚ) : List Candidate → List TradeEvent
  | [] => []
  | idea :: rest =>
    let qty := position_size buying_power idea.entry idea.stop RISK_PCT_PER_TRADE
    if qty ≤ 0 then TradeEvent.sized idea.symbol qty :: tradeLoop buying_power rest
    else [TradeEvent.sized idea.symbol qty,
          TradeEvent.ordered idea.symbol qty idea.stop idea.take]

/-- `scan_and_trade` (lines 218-249), returning the trace of sizing calls and
order submissions it performs. -/
def scan_and_trade (env : ScanEnv) : List TradeEvent :=
  match env.acct with
  | none => []
  | some acct =>
    if acct.trading_blocked then []
    else if daily_loss_exceeded acct then []
    else if MAX_CONCURRENT_POS ≤ env.positions then []
    else
      match candidatesOf env with
      | [] => []
      | c :: cs => tradeLoop acct.buying_power (sortByStrengthDesc (c :: cs))

/-- Whether an event is an order submission. -/
def isOrderedEvent : TradeEvent → Bool
  | .ordered .. => true
  | .sized .. => false

/-- Number of bracket orders in a trace. -/
def countOrders (es : List TradeEvent) : Nat := (es.filter isOrderedEvent).length

/-- True when no event at all follows an order submission in the trace. -/
def noActionAfterOrder : List TradeEvent → Bool
  | [] => true
  | e :: rest => if isOrderedEvent e then rest.isEmpty else noActionAfterOrder rest

/-- The `position_size` invocations recorded in a trace, with their results. -/
def sizedPairs : List TradeEvent → List (String × ℤ)
  | [] => []
  | .sized s q :: rest => (s, q) :: sizedPairs rest
  | .ordered .. :: rest => sizedPairs rest

/-- How many candidates the order loop sizes: the non-positively-sized prefix
plus the first positively sized candidate, if any. -/
def nSized (buying_power : ℚ) : List Candidate → Nat
  | [] => 0
  | c :: rest =>
    if position_size buying_power c.entry c.stop RISK_PCT_PER_TRADE ≤ 0 then
      nSized buying_power rest + 1
    else 1

/- ===== Concrete evaluation data ===== -/

/-- A quiet one-minute bar. -/
def barFlat : Bar := { h := 101, l := 99, c := 100, v := 400000 }

/-- A dip bar that puts a loss inside the 14-period RSI window. -/
def barDip : Bar := { h := 101, l := 89, c := 90, v := 400000 }

/-- The recovery bar after the dip. -/
def barRec : Bar := { h := 101, l := 99, c := 100, v := 400000 }

/-- A breakout bar: close above the prior 20-bar high on 2.5x volume. -/
def barBrk : Bar := { h := 111, l := 104, c := 110, v := 1000000 }

/-- A slightly weaker breakout bar. -/
def barBrk2 : Bar := { h := 111, l := 104, c := 109, v := 1000000 }

/-- Sixty bars that pass every filter of `analyze_symbol`. -/
def goodBars : List Bar := List.replicate 57 barFlat ++ [barDip, barRec, barBrk]

/-- Sixty bars passing every filter with a lower score than `goodBars`. -/
def goodBars2 : List Bar := List.replicate 57 barFlat ++ [barDip, barRec, barBrk2]

/-- The candidate `analyze_symbol` produces on `goodBars`. -/
def goodCand : Candidate :=
  { symbol := "AAPL", entry := 110, stop := 528/5, take := 594/5,
    atr := 4, avg_vol := 420000, strength := 1753/378 }

/-- The candidate `analyze_symbol` produces on `goodBars2`. -/
def goodCand2 : Candidate :=
  { symbol := "MSFT", entry := 109, stop := 523/5, take := 589/5,
    atr := 4, avg_vol := 420000, strength := 3133/756 }

/-- An environment with zero buying power and two candidate symbols. -/
def env0 : ScanEnv :=
  { acct := some { equity := AcctField.val 100000, last_equity := AcctField.val 100000,
                   trading_blocked := false, buying_power := 0 }
    positions := 0
    bars := fun s =>
      if s = "AAPL" then some goodBars else if s = "MSFT" then some goodBars2 else none
    status := fun _ => none }

/-- Fifteen closes whose last 14 differences hold one loss. -/
def closes15 : List ℚ :=
  [100, 100, 100, 100, 100, 100, 100, 100, 100, 100, 100, 100, 90, 100, 110]

/- ===== Theorems ===== -/

/-- Claim C1: for every buying power at least 0, entry price above 0, any stop
price, and risk fraction in the unit interval, `position_size` returns a
non-negative share count whose cost `qty * entry` never exceeds buying
power. -/
theorem position_size_within_buying_power
    (buying_power entry stop risk_pct : ℚ)
    (hbp : 0 ≤ buying_power) (hentry : 0 < entry)
    (hr0 : 0 ≤ risk_pct) (hr1 : risk_pct ≤ 1) :
    0 ≤ position_size buying_power entry stop risk_pct ∧
      (position_size buying_power entry stop risk_pct : ℚ) * entry ≤ buying_power := by
  simp only [position_size]
  by_cases hc : buying_power <
      ((⌊max 0 buying_power * risk_pct / max (1/100) (entry - stop)⌋ : ℤ) : ℚ) * entry
  · rw [if_pos hc]
    have hfl : 0 ≤ ⌊buying_power / entry⌋ :=
      Int.floor_nonneg.mpr (div_nonneg hbp hentry.le)
    refine ⟨le_max_left 0 _, ?_⟩
    rw [max_eq_right hfl]
    calc (⌊buying_power / entry⌋ : ℚ) * entry
        ≤ buying_power / entry * entry :=
          mul_le_mul_of_nonneg_right (Int.floor_le _) hentry.le
      _ = buying_power := div_mul_cancel₀ buying_power hentry.ne'
  · rw [if_neg hc]
    have hs0 : 0 ≤ ⌊max 0 buying_power * risk_pct / max (1/100) (entry - stop)⌋ := by
      apply Int.floor_nonneg.mpr
      apply div_nonneg (mul_nonneg (le_max_left 0 buying_power) hr0)
      exact le_trans (by norm_num) (le_max_left (1/100) (entry - stop))
    refine ⟨le_max_left 0 _, ?_⟩
    rw [max_eq_right hs0]
    exact not_lt.mp hc

/-- Witness for C1 at a concrete input. -/
theorem position_size_within_buying_power_witness :
    0 ≤ position_size 100000 110 (528/5) (1/100) ∧
      (position_size 100000 110 (528/5) (1/100) : ℚ) * 110 ≤ 100000 :=
  position_size_within_buying_power 100000 110 (528/5) (1/100)
    (by norm_num) (by norm_num) (by norm_num) (by norm_num)

/-- Claim C4: with numeric fields, `daily_loss_exceeded` is true exactly when
`last_equity` is non-zero and the drawdown ratio is strictly below minus 3
percent; a zero `last_equity` and the exact minus-3-percent boundary both
leave entries allowed. -/
theorem daily_loss_exceeded_iff (eq last_eq : ℚ) (tb : Bool) (bp : ℚ) :
    (daily_loss_exceeded ⟨AcctField.val eq, AcctField.val last_eq, tb, bp⟩ = true ↔
      last_eq ≠ 0 ∧ (eq - last_eq) / last_eq < -DAILY_MAX_LOSS_PCT) ∧
    daily_loss_exceeded ⟨AcctField.val eq, AcctField.val 0, tb, bp⟩ = false ∧
    daily_loss_exceeded ⟨AcctField.val 97000, AcctField.val 100000, tb, bp⟩ = false := by
  refine ⟨?_, ?_, ?_⟩
  · simp only [daily_loss_exceeded, getField]
    by_cases h : last_eq = 0
    · simp [h, DAILY_MAX_LOSS_PCT]
      norm_num
    · simp [h]
  · simp [daily_loss_exceeded, getField, DAILY_MAX_LOSS_PCT]
    norm_num
  · simp only [daily_loss_exceeded, getField]
    norm_num [DAILY_MAX_LOSS_PCT]

/-- Counterexample to claim C10 as stated: an absent `equity` key does not
make `daily_loss_exceeded` return false — it defaults to 0, so with
`last_equity = 100000` the computed drawdown is -100 percent and the function
returns true. -/
theorem daily_loss_absent_equity_counterexample :
    daily_loss_exceeded ⟨AcctField.absent, AcctField.val 100000, false, 0⟩ = true := by
  decide!

/-- Claim C10 (amended): `daily_loss_exceeded` never raises; when `equity` or
`last_equity` is present but not convertible to a number the exception is
swallowed and the function returns false.  (Absent keys instead fall back to
defaults — equity to 0, last_equity to equity — and the check proceeds.) -/
theorem daily_loss_exceeded_malformed_false (a : Acct)
    (h : a.equity = AcctField.malformed ∨ a.last_equity = AcctField.malformed) :
    daily_loss_exceeded a = false := by
  obtain ⟨e, l, tb, bp⟩ := a
  rcases h with h | h
  · simp only at h
    subst h
    rfl
  · simp only at h
    subst h
    cases e <;> rfl

/-- Witness for the amended C10 at a concrete account. -/
theorem daily_loss_exceeded_malformed_false_witness :
    daily_loss_exceeded ⟨AcctField.malformed, AcctField.val 100000, false, 0⟩ = false :=
  daily_loss_exceeded_malformed_false _ (Or.inl rfl)

theorem lastN_subset (xs : List ℚ) (n : Nat) : lastN xs n ⊆ xs := by
  unfold lastN
  split
  · exact fun x hx => hx
  · exact List.drop_subset _ _

theorem losses_nonneg (closes : List ℚ) : ∀ x ∈ losses closes, 0 ≤ x := by
  intro x hx
  simp only [losses, List.mem_map] at hx
  obtain ⟨ch, -, rfl⟩ := hx
  exact le_max_left 0 _

theorem gains_nonneg (closes : List ℚ) : ∀ x ∈ gains closes, 0 ≤ x := by
  intro x hx
  simp only [gains, List.mem_map] at hx
  obtain ⟨ch, -, rfl⟩ := hx
  exact le_max_left 0 _

theorem avgLoss_nonneg (closes : List ℚ) (n : Nat) : 0 ≤ avgLoss closes n := by
  unfold avgLoss
  refine div_nonneg (List.sum_nonneg ?_) (by positivity)
  exact fun x hx => losses_nonneg closes x (lastN_subset _ _ hx)

theorem avgGain_nonneg (closes : List ℚ) (n : Nat) : 0 ≤ avgGain closes n := by
  unfold avgGain
  refine div_nonneg (List.sum_nonneg ?_) (by positivity)
  exact fun x hx => gains_nonneg closes x (lastN_subset _ _ hx)

/-- Claim C5: on at least `n+1` closes, `rsi` is defined, lies in `[0, 100]`,
and equals 100 exactly when the average loss over the last `n` differences is
zero. -/
theorem rsi_range_and_hundred_iff (closes : List ℚ) (n : Nat) (hn : 0 < n)
    (hlen : n + 1 ≤ closes.length) :
    ∃ v, rsi closes n = some v ∧ 0 ≤ v ∧ v ≤ 100 ∧ (v = 100 ↔ avgLoss closes n = 0) := by
  have hnot : ¬ closes.length < n + 1 := not_lt.mpr hlen
  by_cases hz : avgLoss closes n = 0
  · exact ⟨100, by simp [rsi, hnot, hz], by norm_num, le_refl 100, by simp [hz]⟩
  · have hpos : 0 < avgLoss closes n :=
      lt_of_le_of_ne (avgLoss_nonneg closes n) (Ne.symm hz)
    have hrs : 0 ≤ avgGain closes n / avgLoss closes n :=
      div_nonneg (avgGain_nonneg closes n) hpos.le
    have hfrac_pos : 0 < 100 / (1 + avgGain closes n / avgLoss closes n) :=
      div_pos (by norm_num) (by linarith)
    have hfrac_le : 100 / (1 + avgGain closes n / avgLoss closes n) ≤ 100 :=
      div_le_self (by norm_num) (by linarith)
    refine ⟨100 - 100 / (1 + avgGain closes n / avgLoss closes n),
      by simp [rsi, hnot, hz], by linarith, by linarith, ?_⟩
    constructor
    · intro hv
      exfalso
      linarith
    · intro hv
      exact absurd hv hz

/-- Witness for C5 on a 15-close series holding one loss. -/
theorem rsi_range_and_hundred_iff_witness :
    ∃ v, rsi closes15 14 = some v ∧ 0 ≤ v ∧ v ≤ 100 ∧
      (v = 100 ↔ avgLoss closes15 14 = 0) :=
  rsi_range_and_hundred_iff closes15 14 (by norm_num) (by decide)

theorem tradeLoop_once (buying_power : ℚ) (l : List Candidate) :
    countOrders (tradeLoop buying_power l) ≤ 1 ∧
      noActionAfterOrder (tradeLoop buying_power l) = true := by
  induction l with
  | nil => exact ⟨by simp [tradeLoop, countOrders], rfl⟩
  | cons c rest ih =>
    by_cases hq : position_size buying_power c.entry c.stop RISK_PCT_PER_TRADE ≤ 0
    · constructor
      · simpa [tradeLoop, hq, countOrders, isOrderedEvent] using ih.1
      · simpa [tradeLoop, hq, noActionAfterOrder, isOrderedEvent] using ih.2
    · constructor
      · simp [tradeLoop, hq, countOrders, isOrderedEvent]
      · simp [tradeLoop, hq, noActionAfterOrder, isOrderedEvent]

/-- Claim C2: a scan cycle submits at most one bracket order, and nothing at
all happens in the trace after an order is submitted. -/
theorem scan_and_trade_at_most_one_order (env : ScanEnv) :
    countOrders (scan_and_trade env) ≤ 1 ∧
      noActionAfterOrder (scan_and_trade env) = true := by
  unfold scan_and_trade
  repeat' split
  all_goals
    first
      | exact tradeLoop_once _ _
      | exact ⟨by simp [countOrders], rfl⟩

/-- Counterexample to claim C3 as stated: with zero buying power, both
candidates of `env0` are sized (the top-ranked "AAPL" first, then "MSFT"), so
`position_size` is invoked for a candidate other than the top-ranked one. -/
theorem scan_sizes_second_candidate_counterexample :
    scan_and_trade env0 = [TradeEvent.sized "AAPL" 0, TradeEvent.sized "MSFT" 0] := by
  decide!

/-- Claim C3 (amended): the order loop invokes `position_size` on the sorted
candidates front to back — hence on the top-ranked candidate first, as the
`head?` clause states — and reaches a later candidate only as long as every
earlier one sized to a non-positive quantity; it stops at the first positive
quantity. -/
theorem tradeLoop_sizes_until_first_positive (buying_power : ℚ) (cands : List Candidate) :
    sizedPairs (tradeLoop buying_power cands) =
      (cands.take (nSized buying_power cands)).map
        (fun c => (c.symbol, position_size buying_power c.entry c.stop RISK_PCT_PER_TRADE)) ∧
    (sizedPairs (tradeLoop buying_power cands)).head? =
      cands.head?.map
        (fun c => (c.symbol, position_size buying_power c.entry c.stop RISK_PCT_PER_TRADE)) ∧
    ∀ c ∈ cands.take (nSized buying_power cands - 1),
      position_size buying_power c.entry c.stop RISK_PCT_PER_TRADE ≤ 0 := by
  induction cands with
  | nil => exact ⟨rfl, rfl, by simp⟩
  | cons c rest ih =>
    by_cases hq : position_size buying_power c.entry c.stop RISK_PCT_PER_TRADE ≤ 0
    · refine ⟨?_, ?_, ?_⟩
      · simp [tradeLoop, hq, sizedPairs, nSized, ih.1]
      · simp [tradeLoop, hq, sizedPairs]
      · intro x hx
        simp only [nSized, if_pos hq, Nat.add_sub_cancel] at hx
        rcases hn : nSized buying_power rest with - | m
        · rw [hn] at hx
          simp at hx
        · rw [hn, List.take_succ_cons] at hx
          rcases List.mem_cons.mp hx with hx | hx
          · rw [hx]
            exact hq
          · have := ih.2.2 x
            rw [hn] at this
            exact this (by simpa using hx)
    · refine ⟨?_, ?_, ?_⟩
      · simp [tradeLoop, hq, sizedPairs, nSized]
      · simp [tradeLoop, hq, sizedPairs]
      · intro x hx
        simp [nSized, hq] at hx

/-- Witness for the amended C3: on `env0`'s two candidates with zero buying
power, the first (top-ranked) candidate indeed sized non-positively. -/
theorem tradeLoop_sizes_until_first_positive_witness :
    position_size 0 goodCand.entry goodCand.stop RISK_PCT_PER_TRADE ≤ 0 :=
  (tradeLoop_sizes_until_first_positive 0 [goodCand, goodCand2]).2.2 goodCand (by decide!)

theorem lastN_dropLast_comm (xs : List ℚ) (h : 21 ≤ xs.length) :
    (lastN xs 21).dropLast = lastN xs.dropLast 20 := by
  unfold lastN
  rw [if_neg (by norm_num), if_neg (by norm_num)]
  have h1 : xs.length - (xs.length - 21) - 1 = 20 := by omega
  have h2 : xs.length - 1 - 20 = xs.length - 21 := by omega
  have h3 : xs.length - 21 + 20 = xs.length - 1 := by omega
  rw [List.length_dropLast, h2, List.dropLast_eq_take xs,
    List.dropLast_eq_take (List.drop (xs.length - 21) xs), List.length_drop, h1,
    List.take_drop, h3]

theorem listMax_eq_some (xs : List ℚ) (h : xs ≠ []) : ∃ m, listMax xs = some m :=
  match xs with
  | [] => absurd rfl h
  | x :: t => ⟨t.foldl max x, rfl⟩

theorem lastN_ne_nil (xs : List ℚ) (n : Nat) (h0 : n ≠ 0) (h : n ≤ xs.length) :
    lastN xs n ≠ [] := by
  unfold lastN
  rw [if_neg h0]
  intro hcon
  have hlen := congrArg List.length hcon
  rw [List.length_drop] at hlen
  simp at hlen
  omega

/-- Claim C6: on the 60+ bars `analyze_symbol` requires, the code's breakout
condition coincides with the specification's wording — last close strictly
above the highest high of the 20 bars preceding the last bar, and last volume
strictly above 1.5 times the mean volume of those 20 preceding bars (with the
overall-average fallback below 21 bars). -/
theorem breakout_matches_spec (bars : List Bar) (avg_vol : ℚ) (h : 60 ≤ bars.length) :
    breakoutB (lastClose bars) (highest (bars.map Bar.h).dropLast 20)
        (bars.map Bar.v) avg_vol
      = breakout_claim bars avg_vol := by
  have hlenh : (bars.map Bar.h).length = bars.length := List.length_map _ _
  have hlenv : (bars.map Bar.v).length = bars.length := List.length_map _ _
  have h20 : 20 ≤ ((bars.map Bar.h).dropLast).length := by
    rw [List.length_dropLast, hlenh]
    omega
  obtain ⟨m, hm⟩ := listMax_eq_some (lastN (bars.map Bar.h).dropLast 20)
    (lastN_ne_nil _ 20 (by norm_num) h20)
  unfold breakoutB breakout_claim volBase highest
  rw [if_pos h20, hm, if_pos (by rw [hlenv]; omega), if_pos (by omega)]
  rw [lastN_dropLast_comm _ (by rw [hlenv]; omega)]
  simp only [Option.getD_some]

/-- Witness for C6 on the concrete `goodBars`. -/
theorem breakout_matches_spec_witness :
    breakoutB (lastClose goodBars) (highest (goodBars.map Bar.h).dropLast 20)
        (goodBars.map Bar.v) 420000
      = breakout_claim goodBars 420000 :=
  breakout_matches_spec goodBars 420000 (by decide)

theorem analyze_symbol_some (s : String) (bars? : Option (List Bar)) (st : Option String)
    (c : Candidate) (h : analyze_symbol s bars? st = some c) :
    c.symbol = s ∧
    ∃ bars hi20 a, bars? = some bars ∧
      c.entry = lastClose bars ∧
      c.stop = lastClose bars - STOP_ATR_MULT * a ∧
      c.take = lastClose bars + TAKE_PROFIT_ATR_MULT * a ∧
      c.atr = a ∧
      c.strength = (lastClose bars - hi20) / max (1/100) a
        + (lastClose bars - vwap30 bars) / max (1/100) a ∧
      hi20 < lastClose bars ∧ vwap30 bars < lastClose bars := by
  cases bars? with
  | none => exact absurd h (by simp [analyze_symbol])
  | some bars =>
    simp only [analyze_symbol] at h
    by_cases h60 : bars.length < 60
    · rw [if_pos h60] at h
      exact absurd h (by simp)
    rw [if_neg h60] at h
    by_cases hpr : ¬ (MIN_PRICE ≤ lastClose bars ∧ lastClose bars ≤ MAX_PRICE)
    · rw [if_pos hpr] at h
      exact absurd h (by simp)
    rw [if_neg hpr] at h
    by_cases hav : avgVol30 bars < MIN_AVG_VOL
    · rw [if_pos hav] at h
      exact absurd h (by simp)
    rw [if_neg hav] at h
    cases hhi : highest (bars.map Bar.h).dropLast 20 with
    | none =>
      simp only [hhi] at h
      exact absurd h (by simp)
    | some hi20 =>
      simp only [hhi] at h
      cases hatr : atr (bars.map Bar.h) (bars.map Bar.l) (bars.map Bar.c) 14 with
      | none =>
        simp only [hatr] at h
        exact absurd h (by simp)
      | some a =>
        simp only [hatr] at h
        by_cases hgate : (breakoutB (lastClose bars) (some hi20) (bars.map Bar.v)
            (avgVol30 bars) && decide (vwap30 bars < lastClose bars) && rsiOkB bars) = true
        · rw [if_pos hgate] at h
          by_cases hst : st = some "Halted" ∨ st = some "T1"
          · rw [if_pos hst] at h
            exact absurd h (by simp)
          · rw [if_neg hst] at h
            rw [Bool.and_eq_true, Bool.and_eq_true] at hgate
            obtain ⟨⟨hbrk, hvw⟩, -⟩ := hgate
            unfold breakoutB at hbrk
            rw [Bool.and_eq_true] at hbrk
            have hhi_lt : hi20 < lastClose bars := of_decide_eq_true hbrk.1
            have hvw_lt : vwap30 bars < lastClose bars := of_decide_eq_true hvw
            injection h with h
            subst h
            exact ⟨rfl, bars, hi20, a, rfl, rfl, rfl, rfl, rfl, rfl, hhi_lt, hvw_lt⟩
        · rw [if_neg (by simpa using hgate)] at h
          exact absurd h (by simp)

/-- Claim C7: every candidate `analyze_symbol` produces has a take-profit
distance exactly twice its stop distance (reward:risk exactly 2.0 at the
default multipliers 1.1 and 2.2). -/
theorem candidate_reward_risk_two (s : String) (bars? : Option (List Bar))
    (st : Option String) (c : Candidate) (h : analyze_symbol s bars? st = some c) :
    c.take - c.entry = 2 * (c.entry - c.stop) := by
  obtain ⟨-, bars, hi20, a, -, he, hs, ht, -, -, -, -⟩ := analyze_symbol_some s bars? st c h
  rw [he, hs, ht]
  unfold TAKE_PROFIT_ATR_MULT STOP_ATR_MULT
  ring

/-- Witness for C7 on the concrete `goodBars` candidate. -/
theorem candidate_reward_risk_two_witness :
    goodCand.take - goodCand.entry = 2 * (goodCand.entry - goodCand.stop) :=
  candidate_reward_risk_two "AAPL" (some goodBars) none goodCand (by decide!)

/-- Claim C9: every candidate `analyze_symbol` produces carries a strictly
positive score — the breakout gate forces last close above the prior 20-bar
high, and the VWAP gate forces last close above VWAP, so both ATR-normalised
terms of the score are strictly positive. -/
theorem candidate_strength_pos (s : String) (bars? : Option (List Bar))
    (st : Option String) (c : Candidate) (h : analyze_symbol s bars? st = some c) :
    0 < c.strength := by
  obtain ⟨-, bars, hi20, a, -, -, -, -, -, hstr, hhi, hvw⟩ := analyze_symbol_some s bars? st c h
  rw [hstr]
  have hd : (0:ℚ) < max (1/100) a := lt_of_lt_of_le (by norm_num) (le_max_left _ _)
  have h1 : 0 < (lastClose bars - hi20) / max (1/100) a := div_pos (by linarith) hd
  have h2 : 0 < (lastClose bars - vwap30 bars) / max (1/100) a := div_pos (by linarith) hd
  linarith

/-- Witness for C9 on the concrete `goodBars2` candidate. -/
theorem candidate_strength_pos_witness : 0 < goodCand2.strength :=
  candidate_strength_pos "MSFT" (some goodBars2) none goodCand2 (by decide!)

theorem filter_orderedInsert (q : ℚ) (a : Candidate) (l : List Candidate) :
    (l.orderedInsert strengthGE a).filter (fun c => decide (c.strength = q)) =
      if a.strength = q then
        a :: l.filter (fun c => decide (c.strength = q))
      else l.filter (fun c => decide (c.strength = q)) := by
  induction l with
  | nil =>
    rw [List.orderedInsert_nil]
    by_cases hq : a.strength = q
    · rw [if_pos hq]
      simp [hq]
    · rw [if_neg hq]
      simp [hq]
  | cons b t ih =>
    show (if strengthGE a b then a :: b :: t else b :: t.orderedInsert strengthGE a).filter
        (fun c => decide (c.strength = q)) = _
    by_cases hr : strengthGE a b
    · rw [if_pos hr]
      by_cases hq : a.strength = q
      · rw [if_pos hq]
        simp [List.filter_cons, hq]
      · rw [if_neg hq]
        simp [List.filter_cons, hq]
    · rw [if_neg hr]
      have hab : a.strength < b.strength := not_le.mp hr
      rw [List.filter_cons, List.filter_cons, ih]
      by_cases hq : a.strength = q
      · have hbq : ¬ (b.strength = q) := by
          intro hbq
          rw [hq, ← hbq] at hab
          exact lt_irrefl _ hab
        simp [hq, hbq]
      · by_cases hbq : b.strength = q
        · simp [hq, hbq]
        · simp [hq, hbq]

theorem filter_sortByStrengthDesc (q : ℚ) (l : List Candidate) :
    (sortByStrengthDesc l).filter (fun c => decide (c.strength = q)) =
      l.filter (fun c => decide (c.strength = q)) := by
  induction l with
  | nil => rfl
  | cons x xs ih =>
    show ((xs.insertionSort strengthGE).orderedInsert strengthGE x).filter
        (fun c => decide (c.strength = q)) = _
    rw [filter_orderedInsert]
    unfold sortByStrengthDesc at ih
    by_cases hq : x.strength = q
    · rw [if_pos hq, ih, List.filter_cons]
      simp [hq]
    · rw [if_neg hq, ih, List.filter_cons]
      simp [hq]

theorem map_symbol_filterMap_sublist (f : String → Option Candidate)
    (hf : ∀ s c, f s = some c → c.symbol = s) (l : List String) :
    ((l.filterMap f).map Candidate.symbol).Sublist l := by
  induction l with
  | nil => simp
  | cons s t ih =>
    rw [List.filterMap_cons]
    cases hfs : f s with
    | none => exact ih.cons s
    | some c =>
      rw [List.map_cons, hf s c hfs]
      exact ih.cons₂ s

/-- Claim C8: the candidate list preserves the fixed universe scan order (its
symbols form a sublist of the scanned universe slice), and the sort of line
239 is a permutation, ordered by non-increasing score, that keeps candidates
of equal score in their original scan order (stability, stated per score
value by filtering). -/
theorem scan_order_and_stable_sort (env : ScanEnv) (q : ℚ) :
    ((candidatesOf env).map Candidate.symbol).Sublist (UNIVERSE.take MAX_SYMBOLS_PER_SCAN) ∧
    List.Perm (sortByStrengthDesc (candidatesOf env)) (candidatesOf env) ∧
    List.Sorted strengthGE (sortByStrengthDesc (candidatesOf env)) ∧
    (sortByStrengthDesc (candidatesOf env)).filter (fun c => decide (c.strength = q)) =
      (candidatesOf env).filter (fun c => decide (c.strength = q)) := by
  refine ⟨?_, List.perm_insertionSort _ _, List.sorted_insertionSort _ _,
    filter_sortByStrengthDesc q _⟩
  exact map_symbol_filterMap_sublist _
    (fun s c h => (analyze_symbol_some s (env.bars s) (env.status s) c h).1) _

end PaperBot
